import Mathlib

/-!
Shallow embedding of the homework-cloner pipeline (src/cloneHw.ts and the
interfaces module).  JSON-derived records model possibly-missing fields with
`Option`; a raw JavaScript property access on a missing object is modelled as
a thrown `JsError` via `Except`; the rendering of `undefined` inside a
template literal is modelled by `jsTemplate`.
-/

/- ## Data model (interfaces module and the Student type of cloneHw.ts) -/

structure GithubUser where
  login : String
deriving DecidableEq

structure GithubRepo where
  full_name : String
deriving DecidableEq

structure GithubHead where
  ref : String
deriving DecidableEq

structure GithubBase where
  repo : Option GithubRepo
deriving DecidableEq

/-- A pull request as delivered by the API.  The TypeScript interface declares
`user`, `head` and `base` as always present, but the runtime value is parsed
JSON and the code itself guards `user` and `head` with optional chaining, so
each object-valued field is modelled as an `Option`. -/
structure GithubPR where
  user : Option GithubUser
  head : Option GithubHead
  base : Option GithubBase
deriving DecidableEq

structure GithubError where
  message : String
deriving DecidableEq

/-- `type GithubResponse = GithubPR[] | GithubError`: the parsed HTTP body is
either a list of pull requests or an error object carrying a `message` field. -/
inductive GithubResponse where
  | prs (l : List GithubPR)
  | err (e : GithubError)
deriving DecidableEq

structure Student where
  name : String
  username : String
deriving DecidableEq

/- ## Roster lookup (built identically in filterStudentsPullRequests and
cloneRepositories: `for(const student of students) lookup[username] = name`) -/

/-- The `studentLookup` dictionary restricted to one key: iterating the roster
in order and assigning `lookup[st.username] = st.name`, a later student with
the same username overwrites an earlier one.  `none` means the key is absent. -/
def lookupStudent (students : List Student) (u : String) : Option String :=
  students.foldl (fun acc st => if st.username == u then some st.name else acc) none

/- ## Submission Filter (filterStudentsPullRequests) -/

/-- `pullRequest.user?.login ?? "no user found"`. -/
def resolveUsername (pr : GithubPR) : String :=
  match pr.user with
  | some u => u.login
  | none => "no user found"

/-- `pullRequest.head?.ref`: `none` models `undefined`. -/
def headRef (pr : GithubPR) : Option String :=
  pr.head.map (fun h => h.ref)

/-- The loop body of `filterStudentsPullRequests`: `continue` unless the head
ref is exactly main or master, then push the pull request if the resolved
username is a key of the lookup. -/
def filterLoop (students : List Student) (acc : List GithubPR) :
    List GithubPR → List GithubPR
  | [] => acc
  | pr :: rest =>
    let username := resolveUsername pr
    if headRef pr != some "main" && headRef pr != some "master" then
      filterLoop students acc rest
    else if (lookupStudent students username).isSome then
      filterLoop students (acc ++ [pr]) rest
    else
      filterLoop students acc rest

/-- `filterStudentsPullRequests(pullRequests, students)`. -/
def filterStudentsPullRequests (pullRequests : List GithubPR)
    (students : List Student) : List GithubPR :=
  filterLoop students [] pullRequests

/-- The filter predicate as the spec words it: head branch is exactly `main`
or exactly `master`, and the resolved author username is a key of the
username-to-name lookup (that is, some roster student has that username). -/
def specSubmissionPred (students : List Student) (pr : GithubPR) : Bool :=
  (headRef pr == some "main" || headRef pr == some "master")
    && students.any (fun st => st.username == resolveUsername pr)

/- ## Fetch response handling (the end handler of xhr) -/

/-- The `res.on(end)` handler of `xhr`: `'message' in response` narrows the
union, rejecting error objects with a message naming `org/repo` and resolving
list payloads unchanged. -/
def handleApiResponse (orgName repoName : String) :
    GithubResponse → Except String (List GithubPR)
  | .err _ => .error ("Warning: No repository found for: " ++ orgName ++ "/" ++ repoName)
  | .prs l => .ok l

/- ## Token-expiry check (notifyIfTokenExpiresSoon) -/

/-- `new Date(header).getTime()`: a missing header (`undefined`) or a string
that does not parse as a date yields NaN, modelled as `none`.  The platform
date parser is a parameter. -/
def jsDateGetTime (parseDate : String → Option Int) :
    Option String → Option Int
  | none => none
  | some s => parseDate s

/-- JavaScript subtraction with NaN propagation. -/
def nanSub : Option Int → Option Int → Option Int
  | some a, some b => some (a - b)
  | _, _ => none

/-- `Math.floor(ms / 1000 / 60 / 60 / 24)` with NaN propagation; the exact
real division chain followed by floor is floor-division by 86400000. -/
def jsFloorDays (ms : Option Int) : Option Int :=
  ms.map (fun m => Int.fdiv m 86400000)

/-- `days < 7` in JavaScript: any comparison against NaN is false. -/
def nanLtSeven : Option Int → Bool
  | none => false
  | some d => decide (d < 7)

/-- `notifyIfTokenExpiresSoon`: returns whether the expiry warning is printed. -/
def notifyIfTokenExpiresSoon (parseDate : String → Option Int)
    (header : Option String) (now : Int) : Bool :=
  let milliseconds := nanSub (jsDateGetTime parseDate header) (some now)
  let days := jsFloorDays milliseconds
  nanLtSeven days

/- ## Argument validation and flag parsing (validateRepoName, parseFlags, main) -/

/-- JavaScript regex class `\w` = `[A-Za-z0-9_]`. -/
def isWordChar (c : Char) : Bool :=
  c.isAlphanum || c == '_'

/-- The test `/^\w/.test(repoName)`: the first character is a word character. -/
def startsWithWord (s : String) : Bool :=
  match s.data with
  | [] => false
  | c :: _ => isWordChar c

/-- `validateRepoName`.  A missing `process.argv[2]` (`undefined`) and the
empty string behave identically under `!repoName`, so both are modelled as
the empty string. -/
def validateRepoName (repoName : String) : Option String :=
  if repoName = "" then
    some "No repository name supplied in arguments! Exiting..."
  else if !(startsWithWord repoName) then
    some "Invalid repository name! Exiting..."
  else
    none

/-- The regex `/^--[\w-]+/` used by `parseFlags`: the token starts with two
hyphens followed by at least one word character or hyphen. -/
def matchesFlagPattern (s : String) : Bool :=
  match s.data with
  | '-' :: '-' :: c :: _ => isWordChar c || c == '-'
  | _ => false

/-- `parseFlags(args)`: slices its argument again from index
`CliArgs.RepoName + 1 = 3`, then keeps the tokens matching the flag regex. -/
def parseFlags (args : List String) : List String :=
  let flags := args.drop 3
  flags.filter matchesFlagPattern

/-- Outcome of the argument-handling prefix of `main`: either an early exit
with a printed message, or proceeding to the network fetch with the validated
repository name and the parsed flags. -/
inductive MainOutcome where
  | earlyExit (msg : String)
  | fetch (repoName : String) (flags : List String)
deriving DecidableEq

/-- The argument-handling prefix of `main`: read `process.argv[2]`, validate
it, exit early on a validation error, otherwise compute
`parseFlags(process.argv.slice(3))` and proceed to the fetch. -/
def mainStep (argv : List String) : MainOutcome :=
  let repoName := argv.getD 2 ""
  match validateRepoName repoName with
  | some msg => .earlyExit msg
  | none =>
    let restOfTheArgs := argv.drop 3
    .fetch repoName (parseFlags restOfTheArgs)

/- ## Repository Materializer (cloneRepositories, spawnProcess) -/

/-- A synchronously thrown JavaScript error. -/
inductive JsError where
  | typeError (msg : String)
deriving DecidableEq

/-- Observable per-submission action of the Materializer. -/
inductive CloneEvent where
  | spawned (cmd : String)
  | skippedExisting (studentName : String)
  | caughtError
deriving DecidableEq

def CloneEvent.isSpawn : CloneEvent → Bool
  | .spawned _ => true
  | _ => false

/-- Template-literal rendering of a possibly-undefined string:
`undefined` stringifies to "undefined". -/
def jsTemplate : Option String → String
  | some s => s
  | none => "undefined"

/-- The destination checked by `existsSync` and passed to the clone. -/
def destinationPath (repoName : String) (studentName : Option String) : String :=
  repoName ++ "/" ++ jsTemplate studentName

/-- `spawnProcess`: builds the shell command
`git clone git@<hostName>:<repoPath>.git <repoName>/<studentName>`
and spawns it. -/
def spawnProcess (repoName repoPath studentName hostName : String) : CloneEvent :=
  .spawned ("git clone git@" ++ hostName ++ ":" ++ repoPath ++ ".git "
    ++ repoName ++ "/" ++ studentName)

/-- `submission.base.repo.full_name` with raw (unguarded) property access:
throws a TypeError when `base` or `base.repo` is missing. -/
def resolveRepoPath (s : GithubPR) : Except JsError String :=
  match s.base with
  | none => .error (.typeError "Cannot read properties of undefined (reading repo)")
  | some b =>
    match b.repo with
    | none => .error (.typeError "Cannot read properties of undefined (reading full_name)")
    | some r => .ok r.full_name

/-- `submission.user.login` with raw property access: throws a TypeError when
`user` is missing. -/
def resolveUserLogin (s : GithubPR) : Except JsError String :=
  match s.user with
  | none => .error (.typeError "Cannot read properties of undefined (reading login)")
  | some u => .ok u.login

/-- The body of the `submissions.forEach` callback in `cloneRepositories`.
The repo-path and student-name resolutions sit before the `try` block, so an
error they throw escapes the callback; inside the `try`, `existsSync` and
`spawnProcess` do not throw synchronously, and a caught error would only be
logged (`caughtError`).  `fs` is the set of paths existing on disk; spawning
a clone does not synchronously create the destination directory, so `fs` is
not extended. -/
def processSubmission (repoName hostName : String) (students : List Student)
    (fs : List String) (s : GithubPR) : Except JsError CloneEvent :=
  match resolveRepoPath s with
  | .error e => .error e
  | .ok repoPath =>
    match resolveUserLogin s with
    | .error e => .error e
    | .ok login =>
      let studentName := lookupStudent students login
      let inner : Except JsError CloneEvent :=
        if !(fs.contains (destinationPath repoName studentName)) then
          .ok (spawnProcess repoName repoPath (jsTemplate studentName) hostName)
        else
          .ok (.skippedExisting (jsTemplate studentName))
      match inner with
      | .ok ev => .ok ev
      | .error _ => .ok .caughtError

/-- `submissions.forEach(...)`: sequential processing; an error thrown by a
callback propagates out of `forEach` and aborts the remaining iterations. -/
def runSubmissions (repoName hostName : String) (students : List Student)
    (fs : List String) : List GithubPR → Except JsError (List CloneEvent)
  | [] => .ok []
  | s :: rest =>
    match processSubmission repoName hostName students fs s with
    | .error e => .error e
    | .ok ev =>
      match runSubmissions repoName hostName students fs rest with
      | .error e => .error e
      | .ok evs => .ok (ev :: evs)

/-- `cloneRepositories`: `mkdirSync(repoName)` when absent, then the forEach
loop over submissions.  Returns the trace of per-submission events, or the
first uncaught error. -/
def cloneRepositories (repoName hostName : String) (submissions : List GithubPR)
    (students : List Student) (fs : List String) : Except JsError (List CloneEvent) :=
  let fs1 := if fs.contains repoName then fs else repoName :: fs
  runSubmissions repoName hostName students fs1 submissions

/- ## Gap Reporter (logMissingSubmissions) -/

/-- `submissions.map(submission => submission.user.login)` with raw property
access, so a missing `user` throws. -/
def mapLogins : List GithubPR → Except JsError (List String)
  | [] => .ok []
  | s :: rest =>
    match resolveUserLogin s with
    | .error e => .error e
    | .ok l =>
      match mapLogins rest with
      | .error e => .error e
      | .ok ls => .ok (l :: ls)

/-- `logMissingSubmissions`: when the counts differ, print one line naming, in
roster order, each student whose username made no submission.  Returns the
printed line, `none` when nothing is printed. -/
def logMissingSubmissions (submissions : List GithubPR) (students : List Student) :
    Except JsError (Option String) :=
  if submissions.length != students.length then
    match mapLogins submissions with
    | .error e => .error e
    | .ok githubUsernames =>
      let difference := students.filter (fun st => !(githubUsernames.contains st.username))
      let names := difference.foldl (fun acc st => acc ++ st.name ++ " ") ""
      .ok (some ("Missing submissions from: " ++ names))
  else
    .ok none

/- ## Concrete instances used by witnesses and counterexamples -/

def alice : Student := ⟨"Alice", "a1"⟩

def bob : Student := ⟨"Bob", "b1"⟩

/-- A fully populated pull request by roster member `a1` from branch main. -/
def prAlice : GithubPR := ⟨some ⟨"a1"⟩, some ⟨"main"⟩, some ⟨some ⟨"org/a1-hw"⟩⟩⟩

/-- A pull request by `a1` whose `base` object is missing, so
`submission.base.repo.full_name` throws. -/
def prNoBase : GithubPR := ⟨some ⟨"a1"⟩, some ⟨"main"⟩, none⟩

/- ## Helper lemmas -/

lemma lookupStudent_foldl_isSome (u : String) (students : List Student) :
    ∀ (init : Option String),
      (students.foldl (fun acc st => if st.username == u then some st.name else acc)
          init).isSome
        = (init.isSome || students.any (fun st => st.username == u)) := by
  induction students with
  | nil => intro init; simp
  | cons st rest ih =>
    intro init
    rw [List.foldl_cons, List.any_cons, ih]
    cases h : st.username == u <;> simp [h]

lemma lookupStudent_isSome (students : List Student) (u : String) :
    (lookupStudent students u).isSome = students.any (fun st => st.username == u) := by
  rw [lookupStudent, lookupStudent_foldl_isSome]
  simp

lemma filterLoop_acc (students : List Student) (l : List GithubPR) :
    ∀ (acc : List GithubPR), filterLoop students acc l = acc ++ filterLoop students [] l := by
  induction l with
  | nil => intro acc; simp [filterLoop]
  | cons pr rest ih =>
    intro acc
    simp only [filterLoop]
    split
    · exact ih acc
    · split
      · rw [ih (acc ++ [pr]), ih ([] ++ [pr])]
        simp
      · exact ih acc

lemma filterStudents_characterization (prs : List GithubPR) (students : List Student) :
    filterStudentsPullRequests prs students = prs.filter (specSubmissionPred students) := by
  unfold filterStudentsPullRequests
  induction prs with
  | nil => rfl
  | cons pr rest ih =>
    rw [List.filter_cons]
    simp only [filterLoop, bne, specSubmissionPred]
    simp only [← lookupStudent_isSome]
    split
    · next h =>
      have ha : (headRef pr == some "main") = false := by
        cases hA : (headRef pr == some "main") <;> simp [hA] at h ⊢
      have hb : (headRef pr == some "master") = false := by
        cases hB : (headRef pr == some "master") <;> simp [hB] at h ⊢
      rw [ha, hb]
      simp [ih]
    · next h =>
      have hor : (headRef pr == some "main" || headRef pr == some "master") = true := by
        cases hA : (headRef pr == some "main") <;> cases hB : (headRef pr == some "master") <;>
          simp [hA, hB] at h ⊢
      rw [hor]
      split
      · next hm =>
        rw [hm, filterLoop_acc students rest ([] ++ [pr])]
        simp [ih]
      · next hm =>
        have hm2 : (lookupStudent students (resolveUsername pr)).isSome = false := by
          cases hM : (lookupStudent students (resolveUsername pr)).isSome <;>
            simp [hM] at hm ⊢
        rw [hm2]
        simp [ih]

/- ## Claim theorems -/

/-- Claim C1: the Submission Filter returns exactly the pull requests whose
head branch is exactly `main` or exactly `master` and whose resolved author
username is a key of the roster lookup, as a `List.filter` of the input — so
in the same relative order, with no sorting and no deduplication. -/
theorem submission_filter_exact (prs : List GithubPR) (students : List Student) :
    filterStudentsPullRequests prs students = prs.filter (specSubmissionPred students) :=
  filterStudents_characterization prs students

/-- Claim C2: a response body shaped as an object with a `message` field is
rejected with an error naming `org/repo` and is never resolved as a
pull-request list; a body shaped as a list resolves with exactly that list
and never rejects. -/
theorem fetch_message_vs_list (orgName repoName : String) (e : GithubError)
    (l : List GithubPR) :
    handleApiResponse orgName repoName (.err e)
        = .error ("Warning: No repository found for: " ++ orgName ++ "/" ++ repoName)
      ∧ (∀ l2, handleApiResponse orgName repoName (.err e) ≠ .ok l2)
      ∧ handleApiResponse orgName repoName (.prs l) = .ok l
      ∧ ∀ msg, handleApiResponse orgName repoName (.prs l) ≠ .error msg := by
  refine ⟨rfl, ?_, rfl, ?_⟩ <;> intro x h <;> simp [handleApiResponse] at h

/-- Claim C4 counterexample: with a roster student whose username equals the
sentinel string "no user found", a pull request whose author field is absent
is NOT excluded by the filter — it appears in the output. -/
theorem filter_sentinel_collision_cex :
    (⟨none, some ⟨"main"⟩, none⟩ : GithubPR).user = none
      ∧ filterStudentsPullRequests
          [⟨none, some ⟨"main"⟩, none⟩] [⟨"Ghost", "no user found"⟩]
        = [⟨none, some ⟨"main"⟩, none⟩] := by
  decide

/-- Claim C4 (amended): every pull request in the filter output has a present
author field provided no roster student has the sentinel username
"no user found"; and unconditionally its resolved author username is a key of
the roster lookup. -/
theorem filter_sentinel_guarded (prs : List GithubPR) (students : List Student)
    (pr : GithubPR)
    (hmem : pr ∈ filterStudentsPullRequests prs students) :
    (students.all (fun st => st.username != "no user found") = true →
        pr.user.isSome = true)
      ∧ (lookupStudent students (resolveUsername pr)).isSome = true := by
  rw [filterStudents_characterization] at hmem
  have hp := List.of_mem_filter hmem
  unfold specSubmissionPred at hp
  rw [Bool.and_eq_true] at hp
  have hany := hp.2
  constructor
  · intro hsent
    cases hu : pr.user with
    | some u => rfl
    | none =>
      exfalso
      have hres : resolveUsername pr = "no user found" := by
        simp [resolveUsername, hu]
      rw [hres, List.any_eq_true] at hany
      obtain ⟨st, hst, heq⟩ := hany
      rw [List.all_eq_true] at hsent
      have hne := hsent st hst
      simp at hne heq
      exact hne heq
  · rw [lookupStudent_isSome]
    exact hany

/-- Witness for the amended Claim C4, taken at the sentinel-collision roster
itself: the lookup-key conjunct holds there unconditionally, while the
no-sentinel guard of the first conjunct is not satisfied by this roster. -/
theorem filter_sentinel_guarded_witness :
    (([⟨"Ghost", "no user found"⟩] : List Student).all
          (fun st => st.username != "no user found") = true →
        (⟨none, some ⟨"main"⟩, none⟩ : GithubPR).user.isSome = true)
      ∧ (lookupStudent [⟨"Ghost", "no user found"⟩]
          (resolveUsername ⟨none, some ⟨"main"⟩, none⟩)).isSome = true :=
  filter_sentinel_guarded [⟨none, some ⟨"main"⟩, none⟩] [⟨"Ghost", "no user found"⟩]
    ⟨none, some ⟨"main"⟩, none⟩ (by decide)

/-- Claim C8: a missing repository name or one whose first character is not a
word character makes `main` print a validation message and exit before any
network fetch. -/
theorem invalid_repo_name_exits (argv : List String)
    (h : startsWithWord (argv.getD 2 "") = false) :
    mainStep argv
        = .earlyExit (if argv.getD 2 "" = "" then
              "No repository name supplied in arguments! Exiting..."
            else "Invalid repository name! Exiting...")
      ∧ ∀ repoName flags, mainStep argv ≠ .fetch repoName flags := by
  have hv : validateRepoName (argv.getD 2 "")
      = some (if argv.getD 2 "" = "" then
            "No repository name supplied in arguments! Exiting..."
          else "Invalid repository name! Exiting...") := by
    unfold validateRepoName
    by_cases he : argv.getD 2 "" = ""
    · rw [if_pos he, if_pos he]
    · rw [if_neg he, if_neg he, h]
      rfl
  have hmain : mainStep argv
      = .earlyExit (if argv.getD 2 "" = "" then
            "No repository name supplied in arguments! Exiting..."
          else "Invalid repository name! Exiting...") := by
    simp only [mainStep]
    rw [hv]
  exact ⟨hmain, by
    intro r f hc
    rw [hmain] at hc
    exact MainOutcome.noConfusion hc⟩

/-- Witness for Claim C8: no repository name supplied at all. -/
theorem invalid_repo_name_exits_witness :
    mainStep ["node", "cloneHw.js"]
      = .earlyExit (if (["node", "cloneHw.js"].getD 2 "") = "" then
            "No repository name supplied in arguments! Exiting..."
          else "Invalid repository name! Exiting...") :=
  (invalid_repo_name_exits ["node", "cloneHw.js"] (by decide)).1

/-- Claim C9: because `parseFlags` slices its argument again from index 3,
the flags `main` proceeds with are exactly the tokens matching the flag regex
among `argv.drop 6` — the fourth-and-later arguments after the repository
name; flag tokens among the first three arguments after it are never
recognized. -/
theorem flags_double_slice (argv : List String) (repoName : String)
    (flags : List String) (h : mainStep argv = .fetch repoName flags) :
    flags = (argv.drop 6).filter matchesFlagPattern := by
  simp only [mainStep] at h
  cases hv : validateRepoName (argv.getD 2 "") with
  | some msg => rw [hv] at h; exact MainOutcome.noConfusion h
  | none =>
    rw [hv] at h
    rw [MainOutcome.fetch.injEq] at h
    rw [← h.2]
    unfold parseFlags
    rw [List.drop_drop]

/-- Witness for Claim C9: the token `--verbose` sits directly after the
repository name and is dropped; only `--keep`, the fourth trailing argument,
survives. -/
theorem flags_double_slice_witness :
    (["--keep"] : List String)
      = ((["node", "cloneHw.js", "hw1", "--verbose", "x", "y", "--keep"].drop 6).filter
          matchesFlagPattern) :=
  flags_double_slice ["node", "cloneHw.js", "hw1", "--verbose", "x", "y", "--keep"]
    "hw1" ["--keep"] (by decide)

/-- Claim C10: with a missing expiration header or one that does not parse as
a date, the days computation yields NaN (modelled `none`), the less-than-7
comparison is false, and no warning is printed. -/
theorem token_expiry_nan_silent (parseDate : String → Option Int)
    (header : Option String) (now : Int)
    (h : header = none ∨ ∃ s, header = some s ∧ parseDate s = none) :
    jsFloorDays (nanSub (jsDateGetTime parseDate header) (some now)) = none
      ∧ notifyIfTokenExpiresSoon parseDate header now = false := by
  have hg : jsDateGetTime parseDate header = none := by
    rcases h with h | ⟨s, hs, hp⟩
    · rw [h]; rfl
    · rw [hs]; exact hp
  constructor
  · simp [hg, nanSub, jsFloorDays]
  · simp [notifyIfTokenExpiresSoon, hg, nanSub, jsFloorDays, nanLtSeven]

/-- Witness for Claim C10: an unparseable header value. -/
theorem token_expiry_nan_silent_witness :
    jsFloorDays (nanSub (jsDateGetTime (fun _ => none) (some "not-a-date")) (some 0)) = none
      ∧ notifyIfTokenExpiresSoon (fun _ => none) (some "not-a-date") 0 = false :=
  token_expiry_nan_silent (fun _ => none) (some "not-a-date") 0
    (Or.inr ⟨"not-a-date", rfl, rfl⟩)

/- ## Materializer lemmas -/

lemma resolveRepoPath_of_some (s : GithubPR) (b : GithubBase) (r : GithubRepo)
    (hb : s.base = some b) (hr : b.repo = some r) :
    resolveRepoPath s = .ok r.full_name := by
  simp [resolveRepoPath, hb, hr]

lemma resolveUserLogin_of_some (s : GithubPR) (u : GithubUser)
    (hu : s.user = some u) : resolveUserLogin s = .ok u.login := by
  unfold resolveUserLogin
  rw [hu]

lemma processSubmission_resolved (repoName hostName : String) (students : List Student)
    (fs : List String) (s : GithubPR) (u : GithubUser) (b : GithubBase) (r : GithubRepo)
    (hu : s.user = some u) (hb : s.base = some b) (hr : b.repo = some r) :
    processSubmission repoName hostName students fs s
      = .ok (if !(fs.contains (destinationPath repoName (lookupStudent students u.login))) then
            spawnProcess repoName r.full_name
              (jsTemplate (lookupStudent students u.login)) hostName
          else
            .skippedExisting (jsTemplate (lookupStudent students u.login))) := by
  unfold processSubmission
  rw [resolveRepoPath_of_some s b r hb hr, resolveUserLogin_of_some s u hu]
  dsimp only
  cases hc : fs.contains (destinationPath repoName (lookupStudent students u.login)) <;>
    simp [hc]

lemma processSubmission_spawns (repoName hostName : String) (students : List Student)
    (fs : List String) (s : GithubPR) (u : GithubUser) (b : GithubBase) (r : GithubRepo)
    (hu : s.user = some u) (hb : s.base = some b) (hr : b.repo = some r)
    (hnew : fs.contains (destinationPath repoName (lookupStudent students u.login)) = false) :
    processSubmission repoName hostName students fs s
      = .ok (spawnProcess repoName r.full_name
          (jsTemplate (lookupStudent students u.login)) hostName) := by
  rw [processSubmission_resolved repoName hostName students fs s u b r hu hb hr, hnew]
  rfl

lemma processSubmission_skips (repoName hostName : String) (students : List Student)
    (fs : List String) (s : GithubPR) (u : GithubUser) (b : GithubBase) (r : GithubRepo)
    (hu : s.user = some u) (hb : s.base = some b) (hr : b.repo = some r)
    (hex : fs.contains (destinationPath repoName (lookupStudent students u.login)) = true) :
    processSubmission repoName hostName students fs s
      = .ok (.skippedExisting (jsTemplate (lookupStudent students u.login))) := by
  rw [processSubmission_resolved repoName hostName students fs s u b r hu hb hr, hex]
  rfl

lemma runSubmissions_all_ok (repoName hostName : String) (students : List Student)
    (fs : List String) (submissions : List GithubPR)
    (h : ∀ s ∈ submissions, ∃ ev,
        processSubmission repoName hostName students fs s = .ok ev) :
    ∃ events, runSubmissions repoName hostName students fs submissions = .ok events
      ∧ events.length = submissions.length := by
  induction submissions with
  | nil => exact ⟨[], rfl, rfl⟩
  | cons s rest ih =>
    obtain ⟨ev, hev⟩ := h s (List.mem_cons_self s rest)
    obtain ⟨events, hrun, hlen⟩ := ih (fun x hx => h x (List.mem_cons_of_mem s hx))
    refine ⟨ev :: events, ?_, by simp [hlen]⟩
    rw [runSubmissions, hev, hrun]

lemma runSubmissions_all_skips (repoName hostName : String) (students : List Student)
    (fs : List String) (submissions : List GithubPR)
    (h : ∀ s ∈ submissions, ∃ u b r, s.user = some u ∧ s.base = some b ∧ b.repo = some r
        ∧ fs.contains (destinationPath repoName (lookupStudent students u.login)) = true) :
    ∃ events, runSubmissions repoName hostName students fs submissions = .ok events
      ∧ ∀ e ∈ events, ∃ n, e = CloneEvent.skippedExisting n := by
  induction submissions with
  | nil => exact ⟨[], rfl, by intro e he; cases he⟩
  | cons s rest ih =>
    obtain ⟨u, b, r, hu, hb, hr, hex⟩ := h s (List.mem_cons_self s rest)
    obtain ⟨events, hrun, hskips⟩ := ih (fun x hx => h x (List.mem_cons_of_mem s hx))
    refine ⟨.skippedExisting (jsTemplate (lookupStudent students u.login)) :: events, ?_, ?_⟩
    · rw [runSubmissions, processSubmission_skips repoName hostName students fs s u b r
        hu hb hr hex, hrun]
    · intro e he
      rcases List.mem_cons.mp he with he | he
      · exact ⟨_, he⟩
      · exact hskips e he

/- ## Claim theorems for the Materializer -/

/-- Claim C3 counterexample: resolving `submission.base.repo.full_name` for
the first submission throws outside the try block, the error propagates out
of the forEach, and the second (well-formed) submission is never processed:
the whole call aborts with the error instead of an event list. -/
theorem clone_resolution_abort_cex :
    cloneRepositories "hw1" "github.com" [prNoBase, prAlice] [alice] []
      = .error (.typeError "Cannot read properties of undefined (reading repo)") := rfl

/-- Claim C3 (amended): only errors thrown inside the try block are caught
per-submission; the repo-path and student-name resolutions sit before the
try, so an error there aborts the remaining submissions.  When every
submission's `base.repo` and `user` are present, no resolution throws and
every submission is processed, one event each. -/
theorem clone_resolvable_processes_all (repoName hostName : String)
    (students : List Student) (fs : List String) (submissions : List GithubPR)
    (h : ∀ s ∈ submissions, (∃ u, s.user = some u)
        ∧ ∃ b r, s.base = some b ∧ b.repo = some r) :
    ∃ events, cloneRepositories repoName hostName submissions students fs = .ok events
      ∧ events.length = submissions.length := by
  unfold cloneRepositories
  apply runSubmissions_all_ok
  intro s hs
  obtain ⟨⟨u, hu⟩, b, r, hb, hr⟩ := h s hs
  exact ⟨_, processSubmission_resolved _ hostName students _ s u b r hu hb hr⟩

/-- Witness for the amended Claim C3. -/
theorem clone_resolvable_processes_all_witness :
    ∃ events, cloneRepositories "hw1" "github.com" [prAlice] [alice] [] = .ok events
      ∧ events.length = [prAlice].length :=
  clone_resolvable_processes_all "hw1" "github.com" [alice] [] [prAlice]
    (by intro s hs; rcases List.mem_cons.mp hs with h | h
        · subst h; exact ⟨⟨⟨"a1"⟩, rfl⟩, ⟨some ⟨"org/a1-hw"⟩⟩, ⟨"org/a1-hw"⟩, rfl, rfl⟩
        · cases h)

/-- Claim C5 counterexample: two submissions by the same author in one run.
Spawning a clone does not synchronously create the destination directory, so
the second `existsSync` check still fails and a second clone subprocess is
spawned for the very same destination `hw1/Alice`. -/
theorem clone_duplicate_destination_cex :
    cloneRepositories "hw1" "github.com" [prAlice, prAlice] [alice] []
      = .ok [.spawned "git clone git@github.com:org/a1-hw.git hw1/Alice",
             .spawned "git clone git@github.com:org/a1-hw.git hw1/Alice"] := rfl

/-- Claim C5 (amended): when a submission's destination already exists the
Materializer emits a skip notice and spawns nothing, so a run in which every
destination already exists (a second run) spawns zero clone subprocesses;
within a single run, however, duplicate-author submissions can spawn twice
for the same destination. -/
theorem clone_existing_dest_skips (repoName hostName : String)
    (students : List Student) (fs : List String) (submissions : List GithubPR)
    (hrepo : fs.contains repoName = true)
    (hall : ∀ s ∈ submissions, ∃ u b r, s.user = some u ∧ s.base = some b
        ∧ b.repo = some r
        ∧ fs.contains (destinationPath repoName (lookupStudent students u.login)) = true) :
    ∃ events, cloneRepositories repoName hostName submissions students fs = .ok events
      ∧ (∀ e ∈ events, ∃ n, e = CloneEvent.skippedExisting n)
      ∧ events.countP CloneEvent.isSpawn = 0 := by
  unfold cloneRepositories
  rw [if_pos hrepo]
  obtain ⟨events, hrun, hskips⟩ :=
    runSubmissions_all_skips repoName hostName students fs submissions hall
  refine ⟨events, hrun, hskips, ?_⟩
  rw [List.countP_eq_zero]
  intro e he
  obtain ⟨n, rfl⟩ := hskips e he
  simp [CloneEvent.isSpawn]

/-- Witness for the amended Claim C5: a second run over two duplicate-author
submissions with all destinations already on disk spawns nothing. -/
theorem clone_existing_dest_skips_witness :
    ∃ events, cloneRepositories "hw1" "github.com" [prAlice, prAlice] [alice]
        ["hw1", "hw1/Alice"] = .ok events
      ∧ (∀ e ∈ events, ∃ n, e = CloneEvent.skippedExisting n)
      ∧ events.countP CloneEvent.isSpawn = 0 :=
  clone_existing_dest_skips "hw1" "github.com" [alice] ["hw1", "hw1/Alice"]
    [prAlice, prAlice] (by decide)
    (by intro s hs
        have hs2 : s = prAlice := by
          rcases List.mem_cons.mp hs with h | h
          · exact h
          · rcases List.mem_cons.mp h with h2 | h2
            · exact h2
            · cases h2
        subst hs2
        exact ⟨⟨"a1"⟩, ⟨some ⟨"org/a1-hw"⟩⟩, ⟨"org/a1-hw"⟩, rfl, rfl, rfl, by decide⟩)

/-- Claim C6: for a submission whose author resolves through the roster and
whose destination does not yet exist, the Materializer runs exactly the shell
command `git clone git@<hostName>:<full_name>.git <targetDirName>/<studentName>`. -/
theorem materializer_clone_command (repoName hostName : String)
    (students : List Student) (fs : List String) (s : GithubPR) (u : GithubUser)
    (b : GithubBase) (r : GithubRepo) (studentName : String)
    (hu : s.user = some u) (hb : s.base = some b) (hr : b.repo = some r)
    (hname : lookupStudent students u.login = some studentName)
    (hnew : fs.contains (repoName ++ "/" ++ studentName) = false) :
    processSubmission repoName hostName students fs s
      = .ok (.spawned ("git clone git@" ++ hostName ++ ":" ++ r.full_name ++ ".git "
          ++ repoName ++ "/" ++ studentName)) := by
  have hdest : destinationPath repoName (lookupStudent students u.login)
      = repoName ++ "/" ++ studentName := by
    rw [hname]
    rfl
  rw [processSubmission_spawns repoName hostName students fs s u b r hu hb hr
    (by rw [hdest]; exact hnew)]
  rw [hname]
  rfl

/-- Witness for Claim C6 at a concrete submission. -/
theorem materializer_clone_command_witness :
    processSubmission "hw1" "github.com" [alice] [] prAlice
      = .ok (.spawned "git clone git@github.com:org/a1-hw.git hw1/Alice") :=
  materializer_clone_command "hw1" "github.com" [alice] [] prAlice
    ⟨"a1"⟩ ⟨some ⟨"org/a1-hw"⟩⟩ ⟨"org/a1-hw"⟩ "Alice" rfl rfl rfl (by decide) (by decide)

/- ## Gap Reporter lemmas -/

lemma stringFoldlShift (xs : List String) :
    ∀ x y : String, xs.foldl (· ++ ·) (x ++ y) = x ++ xs.foldl (· ++ ·) y := by
  induction xs with
  | nil => intro x y; rfl
  | cons a rest ih =>
    intro x y
    rw [List.foldl_cons, List.foldl_cons, String.append_assoc, ih]

lemma stringJoin_cons (x : String) (xs : List String) :
    String.join (x :: xs) = x ++ String.join xs := by
  show (x :: xs).foldl (· ++ ·) "" = x ++ xs.foldl (· ++ ·) ""
  rw [List.foldl_cons, String.empty_append]
  have h := stringFoldlShift xs x ""
  rw [String.append_empty] at h
  exact h

lemma foldl_names (l : List Student) :
    ∀ init : String,
      l.foldl (fun acc st => acc ++ st.name ++ " ") init
        = init ++ String.join (l.map (fun st => st.name ++ " ")) := by
  induction l with
  | nil =>
    intro init
    show init = init ++ String.join []
    rw [show String.join [] = "" from rfl, String.append_empty]
  | cons st rest ih =>
    intro init
    rw [List.foldl_cons, ih, List.map_cons, stringJoin_cons]
    simp [String.append_assoc]

lemma resolveUsername_of_some (s : GithubPR) (u : GithubUser) (hu : s.user = some u) :
    resolveUsername s = u.login := by
  simp [resolveUsername, hu]

lemma mapLogins_ok (submissions : List GithubPR)
    (h : ∀ s ∈ submissions, s.user.isSome = true) :
    mapLogins submissions = .ok (submissions.map resolveUsername) := by
  induction submissions with
  | nil => rfl
  | cons s rest ih =>
    obtain ⟨u, hu⟩ := Option.isSome_iff_exists.mp (h s (List.mem_cons_self s rest))
    rw [List.map_cons, mapLogins, resolveUserLogin_of_some s u hu,
      ih (fun x hx => h x (List.mem_cons_of_mem s hx)), resolveUsername_of_some s u hu]

/-- Claim C7: the Gap Reporter prints nothing when the submission count
equals the roster count (even for non-bijective matches), and otherwise
prints exactly one line naming, space-separated and in roster order, each
roster student whose username is absent from the submissions' resolved
author usernames. -/
theorem gap_reporter_spec (submissions : List GithubPR) (students : List Student)
    (h : ∀ s ∈ submissions, s.user.isSome = true) :
    (submissions.length = students.length →
        logMissingSubmissions submissions students = .ok none)
      ∧ (submissions.length ≠ students.length →
          logMissingSubmissions submissions students
            = .ok (some ("Missing submissions from: "
                ++ String.join ((students.filter (fun st =>
                      !((submissions.map resolveUsername).contains st.username))).map
                    (fun st => st.name ++ " "))))) := by
  constructor
  · intro heq
    unfold logMissingSubmissions
    have hc : (submissions.length != students.length) = false := by
      simp [heq]
    rw [hc]
    rfl
  · intro hne
    unfold logMissingSubmissions
    have hc : (submissions.length != students.length) = true := by
      simp [hne]
    rw [hc]
    dsimp only
    rw [mapLogins_ok submissions h]
    dsimp only
    rw [foldl_names, String.empty_append]
    rfl

/-- Witness for Claim C7: with duplicate-author submissions the equal-count
branch stays silent even though Bob never submitted; with one submission and
a two-student roster the missing line names Bob. -/
theorem gap_reporter_spec_witness :
    logMissingSubmissions [prAlice, prAlice] [alice, bob] = .ok none
      ∧ logMissingSubmissions [prAlice] [alice, bob]
          = .ok (some ("Missing submissions from: "
              ++ String.join (([alice, bob].filter (fun st =>
                    !(([prAlice].map resolveUsername).contains st.username))).map
                  (fun st => st.name ++ " ")))) :=
  ⟨(gap_reporter_spec [prAlice, prAlice] [alice, bob]
      (by intro s hs; rcases List.mem_cons.mp hs with h | h
          · subst h; rfl
          · rcases List.mem_cons.mp h with h2 | h2
            · subst h2; rfl
            · cases h2)).1 rfl,
   (gap_reporter_spec [prAlice] [alice, bob]
      (by intro s hs; rcases List.mem_cons.mp hs with h | h
          · subst h; rfl
          · cases h)).2 (by decide)⟩
